import Mathlib

/-!
Verification development for the `tls-perf` TLS handshake benchmarking tool
(`src/main.cc`).  The definitions below are a shallow embedding of the parts of
the program the claims refer to: the per-worker latency sampler
(`LatencyStat`), the shared counter block (`Stat`), the peer state machine's
TLS-handshake step (`tls_handshake`), the driver's per-second statistics update
and final report (`statistics_update_record`, `statistics_dump`), the
open-file-limit adjustment (`update_limits`), the poller's reconnect/backlog
queues (`IOState`), and the worker loop's slow-start bookkeeping
(`creation_loop`, `dispatch_advances`).

Machine integers are modelled as `Nat`/`Int`: every counter involved stays far
below any overflow boundary in the scenarios the claims quantify over, so no
wrap-around modelling is needed.  Out-of-domain vector accesses (UB in the
C++ source) are modelled by explicit domain checks that return a distinguished
`undefinedAccess` result.
-/

namespace TlsPerf

/-- `static const int PEERS_SLOW_START = 10;` -/
def PEERS_SLOW_START : Nat := 10

/-- `static const int LATENCY_N = 1024;` -/
def LATENCY_N : Nat := 1024

/-- The per-worker latency sampler `class LatencyStat`: a ring of `LATENCY_N`
slots and two cursors, `i_` (next write index) and `di_` (stride).  The
`unsigned long[LATENCY_N]` array is modelled as a list of that length. -/
structure LatencyStat where
  i : Nat
  di : Nat
  stat : List Nat
deriving DecidableEq

/-- Constructor `LatencyStat() : i_(0), di_(1), stat_({0})` — cursors at 0 and 1,
the array zero-initialised. -/
def LatencyStat.init : LatencyStat :=
  { i := 0, di := 1, stat := List.replicate LATENCY_N 0 }

/-- `LatencyStat::update(unsigned long dt)`: reject `dt == 0`; otherwise write
`dt` at `i_`, advance `i_` by `di_`, and on overflow wrap `i_` to 0 and bump
`di_`, resetting it to 1 once it exceeds `LATENCY_N / 4`. -/
def LatencyStat.update (s : LatencyStat) (dt : Nat) : LatencyStat :=
  if dt = 0 then
    s
  else if LATENCY_N ≤ s.i + s.di then
    { i := 0
      di := if LATENCY_N / 4 < s.di + 1 then 1 else s.di + 1
      stat := s.stat.set s.i dt }
  else
    { i := s.i + s.di, di := s.di, stat := s.stat.set s.i dt }

/-- The global latency sketch `g_lat_stat`: the collected samples and the sum
accumulator `acc_lat`.  (Its mutex serialises the workers' shutdown-time dumps;
the sequential semantics of one dump is modelled here.) -/
structure GlatStat where
  stat : List Nat
  acc_lat : Nat
deriving DecidableEq

/-- The loop body of `LatencyStat::dump()`: scan the ring from index 0, stop at
the first zero slot, and push every slot seen before it into the global sketch
while adding it into `acc_lat`. -/
def dumpLoop : List Nat → GlatStat → GlatStat
  | [], g => g
  | l :: rest, g =>
    if l = 0 then g
    else dumpLoop rest { stat := g.stat ++ [l], acc_lat := g.acc_lat + l }

/-- `LatencyStat::dump()` applied to global state `g`. -/
def LatencyStat.dump (s : LatencyStat) (g : GlatStat) : GlatStat :=
  dumpLoop s.stat g

/-- The shared counter block `stat`: `tot_tls_handshakes` is a `uint64_t`
monotone total, the rest are `int32_t` deltas that the code increments and
decrements. -/
structure Stat where
  tot_tls_handshakes : Nat
  tcp_handshakes : Int
  tcp_connections : Int
  tls_connections : Int
  tls_handshakes : Int
  error_count : Int
deriving DecidableEq

/-- The process-start counter block (static zero initialisation). -/
def stat_init : Stat :=
  { tot_tls_handshakes := 0, tcp_handshakes := 0, tcp_connections := 0
    tls_connections := 0, tls_handshakes := 0, error_count := 0 }

/-- Outcome classes of `SSL_connect` as seen through `SSL_get_error`:
success (`r == 1`), the two suspension codes, or any other (fatal) error. -/
inductive SSLResult where
  | ok : SSLResult
  | wantRead : SSLResult
  | wantWrite : SSLResult
  | fatal : SSLResult
deriving DecidableEq

/-- Observable outcome of one `Peer::tls_handshake()` call: the counter block
after the call, whether `lat_stat.update` was invoked, whether the peer was
disconnected, whether it was queued for reconnect, and the call's result
(`Except.error ()` models the `throw Except(...)` that fails the worker,
`Except.ok b` models `return b`). -/
structure HsOutcome where
  stat : Stat
  latUpdated : Bool
  disconnected : Bool
  queuedReconnect : Bool
  result : Except Unit Bool

/-- `Peer::tls_handshake()`.  `hadSession` is whether `tls_` was already
non-null on entry (i.e. whether this call resumes a suspended handshake);
`r` is the outcome of this call's `SSL_connect`.  Mirrors `src/main.cc`:
a missing session is created and `tls_handshakes` incremented; on success the
latency sample is taken (`lat_stat.update`), the completion counters advance,
and the peer disconnects and queues for reconnect; on want-read/want-write the
peer stays polled; on a fatal error the worker is failed when
`stat.tls_connections` is zero, otherwise the error counters advance and the
peer disconnects. -/
def tls_handshake (hadSession : Bool) (r : SSLResult) (st : Stat) : HsOutcome :=
  let st := if hadSession then st
            else { st with tls_handshakes := st.tls_handshakes + 1 }
  match r with
  | SSLResult.ok =>
    { stat := { st with tls_handshakes := st.tls_handshakes - 1
                        tls_connections := st.tls_connections + 1
                        tot_tls_handshakes := st.tot_tls_handshakes + 1
                        tcp_connections := st.tcp_connections - 1 }
      latUpdated := true, disconnected := true, queuedReconnect := true
      result := Except.ok true }
  | SSLResult.wantRead =>
    { stat := st, latUpdated := false, disconnected := false
      queuedReconnect := false, result := Except.ok false }
  | SSLResult.wantWrite =>
    { stat := st, latUpdated := false, disconnected := false
      queuedReconnect := false, result := Except.ok false }
  | SSLResult.fatal =>
    if st.tls_connections = 0 then
      { stat := st, latUpdated := false, disconnected := false
        queuedReconnect := false, result := Except.error () }
    else
      { stat := { st with tls_handshakes := st.tls_handshakes - 1
                          error_count := st.error_count + 1
                          tcp_connections := st.tcp_connections - 1 }
        latUpdated := false, disconnected := true, queuedReconnect := false
        result := Except.ok false }

/-- Counter effect of `Peer::tcp_connect()` issuing a connect:
`stat.tcp_handshakes++`. -/
def tcp_connect_start_count (st : Stat) : Stat :=
  { st with tcp_handshakes := st.tcp_handshakes + 1 }

/-- Counter effect of `Peer::handle_established_tcp_conn()`:
`stat.tcp_handshakes--; stat.tcp_connections++`. -/
def tcp_established_count (st : Stat) : Stat :=
  { st with tcp_handshakes := st.tcp_handshakes - 1
            tcp_connections := st.tcp_connections + 1 }

/-- The driver's per-second window consumption in `statistics_update()`:
`auto tls_conns = stat.tls_connections.load(); stat.tls_connections -= tls_conns;`. -/
def driver_consume_window (st : Stat) : Stat :=
  { st with tls_connections := st.tls_connections - st.tls_connections }

/-- The driver-owned window state inside `stat`: measure count, per-second
max/min/avg throughput and the throughput history vector. -/
structure DriverStat where
  measures : Nat
  max_hs : Nat
  min_hs : Nat
  avg_hs : Nat
  hs_history : List Nat
deriving DecidableEq

/-- The driver state at process start (static zero initialisation). -/
def dstat_init : DriverStat :=
  { measures := 0, max_hs := 0, min_hs := 0, avg_hs := 0, hs_history := [] }

/-- The recording tail of `statistics_update()` (the part after the
`if (!start_stats) return;` guard), as a function of the current per-second
sample `curr_hs`: `measures++`, max/min update (min only on non-zero samples),
running integer average, then the history append guarded by the 3600 warning
and the `size() <= 3600` check.  The second component is whether the
"benchmark is running for too long" warning fired. -/
def statistics_update_record (st : DriverStat) (curr_hs : Nat) : DriverStat × Bool :=
  ({ measures := st.measures + 1
     max_hs := if st.max_hs < curr_hs then curr_hs else st.max_hs
     min_hs := if curr_hs ≠ 0 ∧ (curr_hs < st.min_hs ∨ st.min_hs = 0) then curr_hs
               else st.min_hs
     avg_hs := (st.avg_hs * (st.measures + 1 - 1) + curr_hs) / (st.measures + 1)
     hs_history := if st.hs_history.length ≤ 3600 then st.hs_history ++ [curr_hs]
                   else st.hs_history }
   , st.hs_history.length == 3600)

/-- A run of the driver over a list of recorded per-second samples, starting
from the zero-initialised state. -/
def run_measures (samples : List Nat) : DriverStat :=
  samples.foldl (fun st c => (statistics_update_record st c).1) dstat_init

/-- Invariant of the driver's window state: the running average, the recorded
minimum and every history entry are bounded by the recorded maximum. -/
def dstat_inv (st : DriverStat) : Prop :=
  st.avg_hs ≤ st.max_hs ∧ st.min_hs ≤ st.max_hs ∧ ∀ x ∈ st.hs_history, x ≤ st.max_hs

/-- The figures printed by `statistics_dump()`: total measured seconds, then
MAX/AVG/95P/MIN handshakes-per-second and MIN/AVG/95P/MAX latency. -/
structure Report where
  measures : Nat
  max_hs : Nat
  avg_hs : Nat
  p95_hs : Nat
  min_hs : Nat
  lat_min : Nat
  lat_avg : Nat
  lat_p95 : Nat
  lat_max : Nat
deriving DecidableEq

/-- Result of `statistics_dump()`: the early error-and-return branch, a printed
report, or an out-of-domain access (out-of-bounds read or division by zero,
undefined behaviour in the source). -/
inductive DumpResult where
  | notEnoughStats : DumpResult
  | undefinedAccess : DumpResult
  | report : Report → DumpResult
deriving DecidableEq

/-- `statistics_dump()`.  Guard: `if (!start_stats || hsz < 1) ... return;`.
Then the history is sorted descending (`std::greater`) and the latency store
ascending, and the report is read off.  `front()`, `back()`,
`stat[lsz * 95 / 100]` and `acc_lat / lsz` on an empty latency store are out of
domain (undefined behaviour in the source); the `g.stat.length = 0` check below
models exactly that domain boundary — the source performs no such check. -/
def statistics_dump (start_stats : Bool) (st : DriverStat) (g : GlatStat) : DumpResult :=
  if start_stats = false ∨ st.hs_history.length < 1 then
    DumpResult.notEnoughStats
  else if g.stat.length = 0 then
    DumpResult.undefinedAccess
  else
    DumpResult.report
      { measures := st.measures
        max_hs := st.max_hs
        avg_hs := st.avg_hs
        p95_hs := (List.insertionSort (· ≥ ·) st.hs_history).getD
                    (st.hs_history.length * 95 / 100) 0
        min_hs := st.min_hs
        lat_min := (List.insertionSort (· ≤ ·) g.stat).headD 0
        lat_avg := g.acc_lat / g.stat.length
        lat_p95 := (List.insertionSort (· ≤ ·) g.stat).getD
                     (g.stat.length * 95 / 100) 0
        lat_max := (List.insertionSort (· ≤ ·) g.stat).getLastD 0 }

/-- Result of `update_limits()`: continue with a (possibly reduced) per-worker
peer count, or `exit(3)`. -/
inductive LimitsResult where
  | ok : Nat → LimitsResult
  | exit3 : LimitsResult
deriving DecidableEq

/-- `update_limits()`.  `req_fd_n = (n_peers + 4) * n_threads`; return early if
the current soft limit already exceeds it; otherwise overwrite
`open_file_limit.rlim_cur` with `req_fd_n` and call `setrlimit`.  When
`setrlimit` fails, `n_peers` is recomputed as
`open_file_limit.rlim_cur / (n_threads + 4)` — note the field was already
overwritten with the request — and the process exits with code 3 when the
result is zero. -/
def update_limits (n_peers n_threads rlim_cur : Nat) (setrlimit_fails : Bool) :
    LimitsResult :=
  let req_fd_n := (n_peers + 4) * n_threads
  if req_fd_n < rlim_cur then
    LimitsResult.ok n_peers
  else
    let rlim_cur := req_fd_n
    if setrlimit_fails then
      let np := rlim_cur / (n_threads + 4)
      if np = 0 then LimitsResult.exit3 else LimitsResult.ok np
    else
      LimitsResult.ok n_peers

/-- The poller's two peer queues (`std::list<SocketHandler *>`), peers modelled
by their ids: `reconnect_q_` written by `queue_reconnect`, and `backlog_`
drained by `next_backlog`. -/
structure IOState where
  reconnect_q_ : List Nat
  backlog_ : List Nat
deriving DecidableEq

/-- `IO::backlog()` — `backlog_.swap(reconnect_q_);`: the two queues exchange
their contents. -/
def IOState.backlog (s : IOState) : IOState :=
  { reconnect_q_ := s.backlog_, backlog_ := s.reconnect_q_ }

/-- `IO::next_backlog()`: pop and return the front of the backlog, or none. -/
def IOState.next_backlog (s : IOState) : Option Nat × IOState :=
  match s.backlog_ with
  | [] => (none, s)
  | sh :: rest => (some sh, { s with backlog_ := rest })

/-- The peer-creation loop at the top of `io_loop()`:
`for ( ; active_peers < n_peers && new_peers; --new_peers)` — create a peer
(incrementing `active_peers`), advance it once, and bump `new_peers` when the
advance returned true and `active_peers + new_peers` is still below the target.
`rs` is the oracle of `next_state()` results, one per created peer. -/
def creation_loop (n a b : Nat) (rs : List Bool) : Nat × Nat :=
  if h : a < n ∧ b ≠ 0 then
    creation_loop n (a + 1)
      ((if rs.headD false = true ∧ (a + 1) + b < n then b + 1 else b) - 1)
      rs.tail
  else
    (a, b)
termination_by n - a
decreasing_by
  simp_wf
  omega

/-- The readiness-event and backlog phases of one `io_loop()` iteration: each
advanced peer whose `next_state()` returned true bumps `new_peers` when
`active_peers + new_peers < n_peers`.  `rs` is the oracle of advance results. -/
def dispatch_advances (n active budget : Nat) (rs : List Bool) : Nat :=
  rs.foldl (fun b r => if r = true ∧ active + b < n then b + 1 else b) budget

/-- One iteration of the `while (!end_of_work())` body of `io_loop()` acting on
`(active_peers, new_peers)`: the creation loop, then the readiness-event
advances, then the backlog advances. -/
def io_loop_iter (n : Nat) (ab : Nat × Nat) (ev : List Bool × List Bool × List Bool) :
    Nat × Nat :=
  let ab1 := creation_loop n ab.1 ab.2 ev.1
  let b2 := dispatch_advances n ab1.1 ab1.2 ev.2.1
  let b3 := dispatch_advances n ab1.1 b2 ev.2.2
  (ab1.1, b3)

/-- A run of `io_loop()` iterations starting from `active_peers = 0` and
`new_peers = std::min(g_opt.n_peers, PEERS_SLOW_START)`. -/
def io_loop_run (n : Nat) (iters : List (List Bool × List Bool × List Bool)) :
    Nat × Nat :=
  iters.foldl (io_loop_iter n) (0, min n PEERS_SLOW_START)

/-- Modelled from the spec's words for comparison with the source: the claimed
slow-start rule, "the creation budget is incremented by one exactly when an
advanced peer completes a handshake synchronously and concurrency has not yet
reached the target", i.e. the guard is `active < n` alone. -/
def budget_step_claimed (n active b : Nat) (r : Bool) : Nat :=
  if r = true ∧ active < n then b + 1 else b

/-- One `update` call keeps the stride inside `[1, LATENCY_N / 4]`. -/
theorem latency_di_step (s : LatencyStat) (dt : Nat)
    (h1 : 1 ≤ s.di) (h2 : s.di ≤ LATENCY_N / 4) :
    1 ≤ (s.update dt).di ∧ (s.update dt).di ≤ LATENCY_N / 4 := by
  unfold LatencyStat.update
  split
  · exact ⟨h1, h2⟩
  split
  · refine ⟨?_, ?_⟩ <;> dsimp only <;> split <;> simp_all [LATENCY_N]
  · exact ⟨h1, h2⟩

/-- Folding `update` over any sample list preserves the stride bounds. -/
theorem latency_di_foldl (ds : List Nat) :
    ∀ s : LatencyStat, 1 ≤ s.di → s.di ≤ LATENCY_N / 4 →
      1 ≤ (ds.foldl LatencyStat.update s).di ∧
        (ds.foldl LatencyStat.update s).di ≤ LATENCY_N / 4 := by
  induction ds with
  | nil => intro s h1 h2; exact ⟨h1, h2⟩
  | cons d ds ih =>
    intro s h1 h2
    have h := latency_di_step s d h1 h2
    exact ih (s.update d) h.1 h.2

/-- Claim C8: from the initial state (`i = 0`, `di = 1`), after every sequence
of `update` calls the stride satisfies `1 ≤ di ≤ LATENCY_N / 4`; every accepted
update writes at index `i` and advances `i` by `di`, wrapping `i` to 0 and
bumping the stride (with reset past `LATENCY_N / 4`) when `i` would overflow. -/
theorem latency_cursor_invariant :
    (∀ ds : List Nat,
        1 ≤ (ds.foldl LatencyStat.update LatencyStat.init).di ∧
          (ds.foldl LatencyStat.update LatencyStat.init).di ≤ LATENCY_N / 4) ∧
    (∀ (s : LatencyStat) (dt : Nat), dt ≠ 0 →
        (s.update dt).stat = s.stat.set s.i dt ∧
        (s.i + s.di < LATENCY_N →
            (s.update dt).i = s.i + s.di ∧ (s.update dt).di = s.di) ∧
        (LATENCY_N ≤ s.i + s.di →
            (s.update dt).i = 0 ∧
            (s.update dt).di = if LATENCY_N / 4 < s.di + 1 then 1 else s.di + 1)) := by
  constructor
  · intro ds
    exact latency_di_foldl ds LatencyStat.init (by decide) (by decide)
  · intro s dt hdt
    unfold LatencyStat.update
    rw [if_neg hdt]
    by_cases hw : LATENCY_N ≤ s.i + s.di
    · rw [if_pos hw]
      exact ⟨rfl, fun hlt => absurd hlt (Nat.not_lt.mpr hw), fun _ => ⟨rfl, rfl⟩⟩
    · rw [if_neg hw]
      exact ⟨rfl, fun _ => ⟨rfl, rfl⟩, fun hle => absurd hle hw⟩

/-- Witness for `latency_cursor_invariant` at concrete inputs. -/
theorem latency_cursor_invariant_witness :
    1 ≤ (([3, 7] : List Nat).foldl LatencyStat.update LatencyStat.init).di ∧
    (LatencyStat.init.update 5).stat = LatencyStat.init.stat.set LatencyStat.init.i 5 :=
  ⟨(latency_cursor_invariant.1 [3, 7]).1,
   (latency_cursor_invariant.2 LatencyStat.init 5 (by decide)).1⟩

/-- The dump loop appends exactly the slots before the first zero, and adds
each of them into the accumulator. -/
theorem dumpLoop_takeWhile (ring : List Nat) :
    ∀ g : GlatStat,
      dumpLoop ring g =
        { stat := g.stat ++ ring.takeWhile (fun x => x != 0)
          acc_lat := g.acc_lat + (ring.takeWhile (fun x => x != 0)).sum } := by
  induction ring with
  | nil => intro g; cases g; simp [dumpLoop]
  | cons l rest ih =>
    intro g
    by_cases hl : l = 0
    · subst hl
      cases g
      simp [dumpLoop, List.takeWhile_cons]
    · have hb : (l != 0) = true := by simpa using hl
      calc dumpLoop (l :: rest) g
          = dumpLoop rest { stat := g.stat ++ [l], acc_lat := g.acc_lat + l } := by
            simp [dumpLoop, hl]
        _ = { stat := (g.stat ++ [l]) ++ rest.takeWhile (fun x => x != 0)
              acc_lat := (g.acc_lat + l) + (rest.takeWhile (fun x => x != 0)).sum } :=
            ih _
        _ = { stat := g.stat ++ ((l :: rest).takeWhile (fun x => x != 0))
              acc_lat := g.acc_lat + ((l :: rest).takeWhile (fun x => x != 0)).sum } := by
            simp [List.takeWhile_cons, hb, List.append_assoc, Nat.add_assoc]

/-- Claim C9: a zero duration is rejected leaving the sampler unchanged, an
accepted update only ever writes its non-zero duration (so no slot ever holds
a zero written by `update`), and `dump` appends exactly the slots before the
first zero — scanning from index 0 — into the global sketch, adding each
appended value into the sum accumulator. -/
theorem latency_zero_rejected_and_dump_drains :
    (∀ s : LatencyStat, s.update 0 = s) ∧
    (∀ (s : LatencyStat) (dt : Nat), dt ≠ 0 →
        ∀ x ∈ (s.update dt).stat, x ∈ s.stat ∨ x = dt) ∧
    (∀ (s : LatencyStat) (g : GlatStat),
        s.dump g =
          { stat := g.stat ++ s.stat.takeWhile (fun x => x != 0)
            acc_lat := g.acc_lat + (s.stat.takeWhile (fun x => x != 0)).sum }) := by
  refine ⟨fun s => rfl, ?_, fun s g => dumpLoop_takeWhile s.stat g⟩
  intro s dt hdt x hx
  unfold LatencyStat.update at hx
  rw [if_neg hdt] at hx
  split at hx <;> exact List.mem_or_eq_of_mem_set hx

/-- Witness for `latency_zero_rejected_and_dump_drains` at concrete inputs. -/
theorem latency_zero_rejected_witness :
    LatencyStat.init.update 0 = LatencyStat.init ∧
    ((3 : Nat) ∈ ([0, 0] : List Nat) ∨ (3 : Nat) = 3) ∧
    LatencyStat.dump { i := 0, di := 1, stat := [3, 0, 4] } { stat := [9], acc_lat := 9 } =
      { stat := [9] ++ ([3, 0, 4] : List Nat).takeWhile (fun x => x != 0)
        acc_lat := 9 + (([3, 0, 4] : List Nat).takeWhile (fun x => x != 0)).sum } :=
  ⟨latency_zero_rejected_and_dump_drains.1 LatencyStat.init,
   latency_zero_rejected_and_dump_drains.2.1 { i := 0, di := 1, stat := [0, 0] } 3
     (by decide) 3 (by decide),
   latency_zero_rejected_and_dump_drains.2.2 { i := 0, di := 1, stat := [3, 0, 4] }
     { stat := [9], acc_lat := 9 }⟩

/-- Claim C1 (evaluation at the failing run): one handshake succeeds
(`tot_tls_handshakes = 1`), the driver consumes the per-second window
(`tls_connections -= tls_connections`), the peer reconnects, and the next
handshake attempt hits a fatal TLS error — the code raises the worker-fatal
exception even though a TLS connection has succeeded over the run, because the
guard reads the windowed `tls_connections` counter rather than a whole-run
total. -/
theorem tls_fatal_after_driver_reset_fails_worker :
    (tls_handshake false SSLResult.fatal
        (tcp_established_count (tcp_connect_start_count
          (driver_consume_window
            (tls_handshake false SSLResult.ok
              (tcp_established_count (tcp_connect_start_count stat_init))).stat)))).result
      = Except.error () ∧
    (tcp_established_count (tcp_connect_start_count
        (driver_consume_window
          (tls_handshake false SSLResult.ok
            (tcp_established_count (tcp_connect_start_count stat_init))).stat))).tot_tls_handshakes
      = 1 :=
  ⟨rfl, rfl⟩

/-- Claim C2 (evaluation at the failing input): an advance call that resumes an
already-created TLS session (`hadSession = true`) and completes the handshake
does advance the completion counters, but it also invokes the latency
sampler's `update` — the code calls `lat_stat.update` on every `SSL_connect`
success, not only when the session was created on the same call. -/
theorem resumed_handshake_completion_still_samples_latency :
    (tls_handshake true SSLResult.ok
        { tot_tls_handshakes := 0, tcp_handshakes := 0, tcp_connections := 1
          tls_connections := 0, tls_handshakes := 1, error_count := 0 }).latUpdated
      = true ∧
    (tls_handshake true SSLResult.ok
        { tot_tls_handshakes := 0, tcp_handshakes := 0, tcp_connections := 1
          tls_connections := 0, tls_handshakes := 1, error_count := 0 }).stat =
      { tot_tls_handshakes := 1, tcp_handshakes := 0, tcp_connections := 0
        tls_connections := 1, tls_handshakes := 0, error_count := 0 } :=
  ⟨rfl, rfl⟩

/-- Claim C3: when the history already holds exactly 3600 samples,
`statistics_update` emits the "running for too long" warning and nevertheless
appends the sample, so the history grows to 3601 entries — the sample is not
dropped at the claimed 3600 cap. -/
theorem history_cap_warns_but_still_appends (st : DriverStat) (c : Nat)
    (h : st.hs_history.length = 3600) :
    (statistics_update_record st c).2 = true ∧
    (statistics_update_record st c).1.hs_history.length = 3601 := by
  unfold statistics_update_record
  refine ⟨?_, ?_⟩
  · simp [h]
  · simp only [h]
    rw [if_pos (by omega)]
    simp [List.length_append, h]

/-- Witness for `history_cap_warns_but_still_appends` at a concrete history of
length 3600. -/
theorem history_cap_witness :
    (statistics_update_record
        { measures := 0, max_hs := 0, min_hs := 0, avg_hs := 0
          hs_history := List.replicate 3600 0 } 5).2 = true ∧
    (statistics_update_record
        { measures := 0, max_hs := 0, min_hs := 0, avg_hs := 0
          hs_history := List.replicate 3600 0 } 5).1.hs_history.length = 3601 :=
  history_cap_warns_but_still_appends _ 5 (List.length_replicate 3600 0)

/-- Claim C4 (counterexample): with 100 requested peers on one thread the
requested ceiling is 104; when `setrlimit` fails the code continues with
`104 / 5 = 20` peers regardless of whether the available ceiling was 10 or
100 — and 20 peers need `(20 + 4) * 1 = 24 > 10` descriptors, so the reduction
is not proportional to (and does not even fit) the available ceiling. -/
theorem update_limits_reduction_ignores_ceiling :
    update_limits 100 1 10 true = LimitsResult.ok 20 ∧
    update_limits 100 1 100 true = LimitsResult.ok 20 ∧
    10 < (20 + 4) * 1 :=
  ⟨rfl, rfl, by decide⟩

/-- Claim C4 (amended): `update_limits` requests `(n_peers + 4) * n_threads`;
when raising the limit fails, `n_peers` becomes that requested total divided by
`n_threads + 4` (the stored limit having been overwritten with the request, the
previously available ceiling plays no role), and the process exits with code 3
exactly when that quotient is zero. -/
theorem update_limits_fallback_formula (n_peers n_threads rlim_cur : Nat)
    (h : rlim_cur ≤ (n_peers + 4) * n_threads) :
    update_limits n_peers n_threads rlim_cur true =
      (if (n_peers + 4) * n_threads / (n_threads + 4) = 0 then LimitsResult.exit3
       else LimitsResult.ok ((n_peers + 4) * n_threads / (n_threads + 4))) ∧
    (update_limits n_peers n_threads rlim_cur true = LimitsResult.exit3 ↔
      (n_peers + 4) * n_threads / (n_threads + 4) = 0) := by
  have hng : ¬ ((n_peers + 4) * n_threads < rlim_cur) := by omega
  have h1 : update_limits n_peers n_threads rlim_cur true =
      (if (n_peers + 4) * n_threads / (n_threads + 4) = 0 then LimitsResult.exit3
       else LimitsResult.ok ((n_peers + 4) * n_threads / (n_threads + 4))) := by
    unfold update_limits
    rw [if_neg hng]
    rfl
  refine ⟨h1, ?_⟩
  rw [h1]
  by_cases hz : (n_peers + 4) * n_threads / (n_threads + 4) = 0
  · rw [if_pos hz]
    simp [hz]
  · rw [if_neg hz]
    simp [hz]

/-- Witness for `update_limits_fallback_formula`: zero requested peers on one
thread yield `4 / 5 = 0` and the process exits with code 3. -/
theorem update_limits_fallback_witness :
    update_limits 0 1 4 true =
      (if (0 + 4) * 1 / (1 + 4) = 0 then LimitsResult.exit3
       else LimitsResult.ok ((0 + 4) * 1 / (1 + 4))) :=
  (update_limits_fallback_formula 0 1 4 (by decide)).1

/-- Claim C5 (counterexample): `backlog()` swaps the queues, so with a
non-empty backlog beforehand the reconnect queue is left holding the old
backlog — it is not left empty. -/
theorem swap_backlog_leaves_old_backlog_in_reconnect :
    (IOState.backlog { reconnect_q_ := [2], backlog_ := [1] }).backlog_ = [2] ∧
    0 < (IOState.backlog { reconnect_q_ := [2], backlog_ := [1] }).reconnect_q_.length :=
  ⟨rfl, by decide⟩

/-- Claim C5 (amended): `swap_backlog` exchanges the two queues — the backlog
ends up holding exactly the old reconnect queue in order, the reconnect queue
ends up holding the old backlog (hence empty exactly when the backlog was empty
beforehand), and `next_backlog` yields peers one at a time from the front. -/
theorem swap_backlog_exchanges_queues (s : IOState) :
    (IOState.backlog s).backlog_ = s.reconnect_q_ ∧
    (IOState.backlog s).reconnect_q_ = s.backlog_ ∧
    (s.backlog_ = [] → (IOState.backlog s).reconnect_q_ = []) ∧
    (∀ (q : List Nat) (sh : Nat) (rest : List Nat),
        IOState.next_backlog { reconnect_q_ := q, backlog_ := sh :: rest } =
          (some sh, { reconnect_q_ := q, backlog_ := rest })) ∧
    (∀ q : List Nat,
        IOState.next_backlog { reconnect_q_ := q, backlog_ := [] } =
          (none, { reconnect_q_ := q, backlog_ := [] })) := by
  refine ⟨rfl, rfl, ?_, fun q sh rest => rfl, fun q => rfl⟩
  intro h
  simp [IOState.backlog, h]

/-- Witness for `swap_backlog_exchanges_queues` with an empty backlog. -/
theorem swap_backlog_exchanges_witness :
    (IOState.backlog { reconnect_q_ := [5], backlog_ := [] }).reconnect_q_ = [] :=
  (swap_backlog_exchanges_queues { reconnect_q_ := [5], backlog_ := [] }).2.2.1 rfl

/-- The creation loop never pushes `active_peers` past `n_peers`. -/
theorem creation_loop_fst_le (k : Nat) :
    ∀ (n a b : Nat) (rs : List Bool), n - a ≤ k → a ≤ n →
      (creation_loop n a b rs).1 ≤ n := by
  induction k with
  | zero =>
    intro n a b rs hk ha
    unfold creation_loop
    split
    · next h => exact absurd h.1 (by omega)
    · exact ha
  | succ k ih =>
    intro n a b rs hk ha
    unfold creation_loop
    split
    · next h => exact ih n (a + 1) _ rs.tail (by omega) (by omega)
    · exact ha

/-- One worker-loop iteration keeps `active_peers ≤ n_peers`. -/
theorem io_loop_iter_fst_le (n : Nat) (ab : Nat × Nat)
    (ev : List Bool × List Bool × List Bool) (ha : ab.1 ≤ n) :
    (io_loop_iter n ab ev).1 ≤ n :=
  creation_loop_fst_le (n - ab.1) n ab.1 ab.2 ev.1 (le_refl _) ha

/-- Folding worker-loop iterations keeps `active_peers ≤ n_peers`. -/
theorem io_loop_foldl_fst_le (n : Nat)
    (iters : List (List Bool × List Bool × List Bool)) :
    ∀ ab : Nat × Nat, ab.1 ≤ n → (iters.foldl (io_loop_iter n) ab).1 ≤ n := by
  induction iters with
  | nil => intro ab ha; exact ha
  | cons it its ih => intro ab ha; exact ih _ (io_loop_iter_fst_le n ab it ha)

/-- Claim C7 (counterexample): with target 10, `active_peers = 6` and budget
`new_peers = 5`, a successful synchronous advance does not bump the budget
(since `6 + 5 < 10` fails) even though concurrency (6) has not reached the
target — the code's condition differs from the claimed `active < target`. -/
theorem budget_increment_condition_differs :
    dispatch_advances 10 6 5 [true] = 5 ∧
    budget_step_claimed 10 6 5 true = 6 ∧
    dispatch_advances 10 6 5 [true] < budget_step_claimed 10 6 5 true :=
  ⟨rfl, rfl, by decide⟩

/-- Claim C7 (amended): over every worker-loop run `active_peers ≤ n_peers`;
the initial creation budget `min n_peers PEERS_SLOW_START` is at most
`PEERS_SLOW_START`; and the budget is incremented by one exactly when an
advance returns true and `active_peers + new_peers` is still below `n_peers`
(in the creation loop, with `active_peers` already counting the just-created
peer). -/
theorem io_loop_concurrency_invariant (n a b : Nat) (r : Bool)
    (iters : List (List Bool × List Bool × List Bool)) (rs : List Bool)
    (ha : a < n) (hb : b ≠ 0) :
    (io_loop_run n iters).1 ≤ n ∧
    min n PEERS_SLOW_START ≤ PEERS_SLOW_START ∧
    dispatch_advances n a b [r] = (if r = true ∧ a + b < n then b + 1 else b) ∧
    creation_loop n a b rs =
      creation_loop n (a + 1)
        ((if rs.headD false = true ∧ (a + 1) + b < n then b + 1 else b) - 1)
        rs.tail := by
  refine ⟨?_, Nat.min_le_right n PEERS_SLOW_START, rfl, ?_⟩
  · exact io_loop_foldl_fst_le n iters (0, min n PEERS_SLOW_START) (Nat.zero_le n)
  · rw [creation_loop.eq_def]
    exact dif_pos ⟨ha, hb⟩

/-- Witness for `io_loop_concurrency_invariant` at concrete inputs. -/
theorem io_loop_concurrency_witness :
    (io_loop_run 10 [([true], [], [])]).1 ≤ 10 ∧
    min 10 PEERS_SLOW_START ≤ PEERS_SLOW_START ∧
    dispatch_advances 10 6 5 [true] = (if true = true ∧ 6 + 5 < 10 then 5 + 1 else 5) ∧
    creation_loop 10 6 5 [true] =
      creation_loop 10 (6 + 1)
        ((if ([true] : List Bool).headD false = true ∧ (6 + 1) + 5 < 10
          then 5 + 1 else 5) - 1)
        ([true] : List Bool).tail :=
  io_loop_concurrency_invariant 10 6 5 true [([true], [], [])] [true]
    (by decide) (by decide)

/-- Claim C10: the error-and-return branch of `statistics_dump` is taken
exactly when the start flag is unset or the throughput history is empty; with
at least one throughput sample recorded and an empty latency store, the dump
proceeds past the guard into the latency accesses (`front()`, `back()`, the
95th-percentile index and `acc_lat / size`), which on the empty store are out
of domain — division by zero and out-of-bounds reads are reachable. -/
theorem statistics_dump_guard_characterization (b : Bool) (st : DriverStat)
    (g : GlatStat) :
    (statistics_dump b st g = DumpResult.notEnoughStats ↔
      (b = false ∨ st.hs_history.length = 0)) ∧
    (b = true → st.hs_history.length ≠ 0 → g.stat = [] →
      statistics_dump b st g = DumpResult.undefinedAccess) := by
  constructor
  · unfold statistics_dump
    by_cases hg : b = false ∨ st.hs_history.length < 1
    · rw [if_pos hg]
      refine iff_of_true rfl ?_
      rcases hg with h | h
      · exact Or.inl h
      · exact Or.inr (by omega)
    · rw [if_neg hg]
      push_neg at hg
      have hno : ¬ (b = false ∨ st.hs_history.length = 0) := by
        rintro (h | h)
        · exact hg.1 h
        · exact absurd h (by omega)
      split <;> exact iff_of_false (by simp) hno
  · intro hb hl hgs
    subst hb
    unfold statistics_dump
    have h1 : ¬ (true = false ∨ st.hs_history.length < 1) := by
      rintro (h | h)
      · exact Bool.noConfusion h
      · omega
    rw [if_neg h1]
    have h2 : g.stat.length = 0 := by rw [hgs]; rfl
    rw [if_pos h2]

/-- `getD` with default 0 is bounded by any bound on the list's elements. -/
theorem getD_le_of_forall_le (l : List Nat) :
    ∀ i M : Nat, (∀ x ∈ l, x ≤ M) → l.getD i 0 ≤ M := by
  induction l with
  | nil =>
    intro i M _
    rw [List.getD_nil]
    exact Nat.zero_le M
  | cons a t ih =>
    intro i M h
    cases i with
    | zero =>
      rw [List.getD_cons_zero]
      exact h a (List.mem_cons_self a t)
    | succ j =>
      rw [List.getD_cons_succ]
      exact ih j M (fun x hx => h x (List.mem_cons_of_mem a hx))

/-- `getD` at an in-range index is a member of the list. -/
theorem getD_mem_of_lt (l : List Nat) :
    ∀ i : Nat, i < l.length → l.getD i 0 ∈ l := by
  induction l with
  | nil =>
    intro i h
    exact absurd h (by simp)
  | cons a t ih =>
    intro i h
    cases i with
    | zero =>
      rw [List.getD_cons_zero]
      exact List.mem_cons_self a t
    | succ j =>
      rw [List.getD_cons_succ]
      refine List.mem_cons_of_mem a (ih j ?_)
      simp only [List.length_cons] at h
      omega

/-- In an ascending-sorted list the default head is a lower bound. -/
theorem sorted_headD_le (l : List Nat) (hs : l.Sorted (· ≤ ·)) :
    ∀ x ∈ l, l.headD 0 ≤ x := by
  cases l with
  | nil => intro x hx; exact absurd hx (by simp)
  | cons a t =>
    intro x hx
    rw [List.headD_cons]
    rcases List.mem_cons.mp hx with h | h
    · exact Nat.le_of_eq h.symm
    · exact (List.sorted_cons.mp hs).1 x h

/-- In an ascending-sorted list the default last element is an upper bound. -/
theorem sorted_le_getLastD (l : List Nat) :
    ∀ d : Nat, l.Sorted (· ≤ ·) → (∀ y ∈ l, d ≤ y) →
      d ≤ l.getLastD d ∧ ∀ x ∈ l, x ≤ l.getLastD d := by
  induction l with
  | nil =>
    intro d _ _
    exact ⟨Nat.le_refl d, fun x hx => absurd hx (by simp)⟩
  | cons a t ih =>
    intro d hs hd
    rw [List.getLastD_cons]
    obtain ⟨ha, ht⟩ := List.sorted_cons.mp hs
    obtain ⟨h1, h2⟩ := ih a ht ha
    refine ⟨Nat.le_trans (hd a (List.mem_cons_self a t)) h1, ?_⟩
    intro x hx
    rcases List.mem_cons.mp hx with h | h
    · exact Nat.le_trans (Nat.le_of_eq h) h1
    · exact h2 x h

/-- A lower bound on every element bounds `length • bound` by the sum. -/
theorem mul_length_le_sum (l : List Nat) :
    ∀ m : Nat, (∀ x ∈ l, m ≤ x) → m * l.length ≤ l.sum := by
  induction l with
  | nil => intro m _; simp
  | cons a t ih =>
    intro m h
    rw [List.sum_cons, List.length_cons, Nat.mul_succ]
    have ht := ih m (fun x hx => h x (List.mem_cons_of_mem a hx))
    have ha := h a (List.mem_cons_self a t)
    omega

/-- An upper bound on every element bounds the sum by `bound * length`. -/
theorem sum_le_mul_length (l : List Nat) :
    ∀ M : Nat, (∀ x ∈ l, x ≤ M) → l.sum ≤ M * l.length := by
  induction l with
  | nil => intro M _; simp
  | cons a t ih =>
    intro M h
    rw [List.sum_cons, List.length_cons, Nat.mul_succ]
    have ht := ih M (fun x hx => h x (List.mem_cons_of_mem a hx))
    have ha := h a (List.mem_cons_self a t)
    omega

/-- The 95th-percentile index `n * 95 / 100` is in range for non-empty data. -/
theorem p95_index_lt (n : Nat) (h : 0 < n) : n * 95 / 100 < n := by
  rw [Nat.div_lt_iff_lt_mul (by omega : (0 : Nat) < 100)]
  omega

/-- One recorded sample preserves the driver-state invariant. -/
theorem dstat_inv_step (st : DriverStat) (c : Nat) (h : dstat_inv st) :
    dstat_inv (statistics_update_record st c).1 := by
  obtain ⟨h1, h2, h3⟩ := h
  unfold statistics_update_record dstat_inv
  dsimp only
  simp only [Nat.add_sub_cancel]
  set M := if st.max_hs < c then c else st.max_hs with hM
  have hm : st.max_hs ≤ M := by rw [hM]; split <;> omega
  have hc : c ≤ M := by rw [hM]; split <;> omega
  refine ⟨?_, ?_, ?_⟩
  · have havg := Nat.mul_le_mul_right st.measures (Nat.le_trans h1 hm)
    calc (st.avg_hs * st.measures + c) / (st.measures + 1)
        ≤ (M * (st.measures + 1)) / (st.measures + 1) :=
          Nat.div_le_div_right (by rw [Nat.mul_succ]; omega)
      _ = M := Nat.mul_div_cancel M (Nat.succ_pos st.measures)
  · split <;> omega
  · intro x hx
    split at hx
    · rcases List.mem_append.mp hx with hmem | hmem
      · exact Nat.le_trans (h3 x hmem) hm
      · have hxc : x = c := by simpa using hmem
        omega
    · exact Nat.le_trans (h3 x hx) hm

/-- The driver-state invariant holds after any run of recorded samples. -/
theorem dstat_inv_run (samples : List Nat) : dstat_inv (run_measures samples) := by
  have haux : ∀ st : DriverStat, dstat_inv st →
      dstat_inv (samples.foldl (fun st c => (statistics_update_record st c).1) st) := by
    induction samples with
    | nil => intro st h; exact h
    | cons c cs ih => intro st h; exact ih _ (dstat_inv_step st c h)
  exact haux dstat_init
    ⟨Nat.le_refl 0, Nat.le_refl 0, fun x hx => absurd hx (by simp [dstat_init])⟩

/-- Claim C6 (counterexample): with the two recorded throughput samples 10 and
1, the final report has AVG h/s 5 but 95P h/s 1 (the 95th-percentile index of
the descending-sorted history picks a near-minimal value), so the claimed
chain `avg ≤ 95P` fails. -/
theorem report_avg_can_exceed_p95 :
    statistics_dump true (run_measures [10, 1]) { stat := [5], acc_lat := 5 } =
      DumpResult.report
        { measures := 2, max_hs := 10, avg_hs := 5, p95_hs := 1, min_hs := 1
          lat_min := 5, lat_avg := 5, lat_p95 := 5, lat_max := 5 } ∧
    (1 : Nat) < 5 :=
  ⟨by decide, by decide⟩

/-- Claim C6 (amended): whenever the final report is produced, the throughput
figures satisfy `avg ≤ max`, `95P ≤ max` and `min ≤ max`, and the latency
figures satisfy `min ≤ avg ≤ max` and `min ≤ 95P ≤ max` (assuming, as the
program guarantees, that the latency accumulator equals the sum of the stored
samples); the claimed chains `avg ≤ 95P` do not hold in general. -/
theorem report_bounds (samples : List Nat) (g : GlatStat) (r : Report)
    (hacc : g.acc_lat = g.stat.sum)
    (hrep : statistics_dump true (run_measures samples) g = DumpResult.report r) :
    r.avg_hs ≤ r.max_hs ∧ r.p95_hs ≤ r.max_hs ∧ r.min_hs ≤ r.max_hs ∧
    r.lat_min ≤ r.lat_avg ∧ r.lat_avg ≤ r.lat_max ∧
    r.lat_min ≤ r.lat_p95 ∧ r.lat_p95 ≤ r.lat_max := by
  unfold statistics_dump at hrep
  split at hrep
  · exact DumpResult.noConfusion hrep
  · split at hrep
    · exact DumpResult.noConfusion hrep
    · rename_i hguard hlsz
      have hr := (DumpResult.report.injEq _ _).mp hrep
      subst hr
      obtain ⟨hi1, hi2, hi3⟩ := dstat_inv_run samples
      have hLs : (List.insertionSort (· ≤ ·) g.stat).Sorted (· ≤ ·) :=
        List.sorted_insertionSort (· ≤ ·) g.stat
      have hLp : List.Perm (List.insertionSort (· ≤ ·) g.stat) g.stat :=
        List.perm_insertionSort (· ≤ ·) g.stat
      have hpos : 0 < g.stat.length := Nat.pos_of_ne_zero hlsz
      have hhead : ∀ x ∈ List.insertionSort (· ≤ ·) g.stat,
          (List.insertionSort (· ≤ ·) g.stat).headD 0 ≤ x :=
        sorted_headD_le _ hLs
      have hlast : ∀ x ∈ List.insertionSort (· ≤ ·) g.stat,
          x ≤ (List.insertionSort (· ≤ ·) g.stat).getLastD 0 :=
        (sorted_le_getLastD _ 0 hLs (fun y _ => Nat.zero_le y)).2
      have hidx : g.stat.length * 95 / 100 < (List.insertionSort (· ≤ ·) g.stat).length := by
        rw [hLp.length_eq]
        exact p95_index_lt _ hpos
      refine ⟨hi1, ?_, hi2, ?_, ?_, ?_, ?_⟩
      · exact getD_le_of_forall_le _ _ _
          (fun x hx => hi3 x ((List.perm_insertionSort (· ≥ ·) _).mem_iff.mp hx))
      · rw [hacc, Nat.le_div_iff_mul_le hpos, ← hLp.length_eq, ← hLp.sum_eq]
        exact mul_length_le_sum _ _ hhead
      · rw [hacc]
        have hsum : g.stat.sum ≤
            (List.insertionSort (· ≤ ·) g.stat).getLastD 0 * g.stat.length := by
          rw [← hLp.length_eq, ← hLp.sum_eq]
          exact sum_le_mul_length _ _ hlast
        calc g.stat.sum / g.stat.length
            ≤ ((List.insertionSort (· ≤ ·) g.stat).getLastD 0 * g.stat.length) /
                g.stat.length := Nat.div_le_div_right hsum
          _ = (List.insertionSort (· ≤ ·) g.stat).getLastD 0 :=
              Nat.mul_div_cancel _ hpos
      · exact hhead _ (getD_mem_of_lt _ _ hidx)
      · exact hlast _ (getD_mem_of_lt _ _ hidx)

/-- Witness for `report_bounds` at a concrete run. -/
theorem report_bounds_witness :
    statistics_dump true (run_measures [4, 6]) { stat := [5], acc_lat := 5 } =
      DumpResult.report
        { measures := 2, max_hs := 6, avg_hs := 5, p95_hs := 4, min_hs := 4
          lat_min := 5, lat_avg := 5, lat_p95 := 5, lat_max := 5 } ∧
    ((5 : Nat) ≤ 6 ∧ (4 : Nat) ≤ 6 ∧ (4 : Nat) ≤ 6 ∧ (5 : Nat) ≤ 5 ∧
      (5 : Nat) ≤ 5 ∧ (5 : Nat) ≤ 5 ∧ (5 : Nat) ≤ 5) :=
  ⟨by decide,
   report_bounds [4, 6] { stat := [5], acc_lat := 5 }
     { measures := 2, max_hs := 6, avg_hs := 5, p95_hs := 4, min_hs := 4
       lat_min := 5, lat_avg := 5, lat_p95 := 5, lat_max := 5 } rfl (by decide)⟩

/-- Witness for `statistics_dump_guard_characterization` at concrete inputs. -/
theorem statistics_dump_guard_witness :
    statistics_dump true
        { measures := 1, max_hs := 7, min_hs := 7, avg_hs := 7, hs_history := [7] }
        { stat := [], acc_lat := 0 } = DumpResult.undefinedAccess ∧
    statistics_dump false dstat_init { stat := [], acc_lat := 0 } =
      DumpResult.notEnoughStats :=
  ⟨(statistics_dump_guard_characterization true _ _).2 rfl (by decide) rfl,
   (statistics_dump_guard_characterization false dstat_init _).1.mpr (Or.inl rfl)⟩

end TlsPerf
